import Mathlib

/-!
Shallow embedding of the `Kinetics` dataset class from
`libs/datasets/kinetics.py` (the active class, not the deprecated
`Kinetics_OLD` variant), together with theorems about its
construction (`__init__` / `_construct_loader`), sampling-index
resolution, bounded retry loop and item assembly (`__getitem__`),
and length reporting (`__len__`).

External collaborators (video container acquisition, the decoder,
tensor transforms, the random number source) are modelled as an
oracle environment `Env`; frame tensors are an abstract type
parameter, since no modelled property inspects pixel data.
Python machine integers are modelled as `Int`/`Nat` (no overflow is
possible in Python), and the floating-point configuration values fed
to `round` are modelled as exact rationals.
-/

namespace ATS

/-- The three dataset modes accepted by `Kinetics.__init__`. -/
inductive Mode
  | train
  | val
  | test
deriving DecidableEq, Repr

/-- The configuration fields of `cfg` read by the modelled code paths of
the `Kinetics` class.  `DATA_PATH_ROOT` models `cfg.DATA.PATH_PREFIX`;
the other names follow the source, with dots replaced by underscores. -/
structure Cfg where
  TEST_NUM_ENSEMBLE_VIEWS : Nat
  TEST_NUM_SPATIAL_CROPS : Nat
  DATA_TRAIN_JITTER_SCALES : List Int
  DATA_TRAIN_CROP_SIZE : Int
  DATA_TEST_CROP_SIZE : Int
  DATA_PATH_LABEL_SEPARATOR : String
  DATA_PATH_ROOT : String
  MULTIGRID_SHORT_CYCLE_FACTORS : List ℚ
  MULTIGRID_DEFAULT_S : ℚ
  AUG_ENABLE : Bool
  AUG_RE_PROB : ℚ
  AUG_NUM_SAMPLE : Nat
deriving DecidableEq, Repr

/-- `os.path.join(a, b)` restricted to two components, as used in
`_construct_loader`: an absolute second component wins, otherwise the
components are joined with a slash (not doubled after a trailing slash
or an empty first component). -/
def pathJoin (a b : String) : String :=
  if b.toList.head? = some '/' then b
  else if a = "" ∨ a.toList.getLast? = some '/' then a ++ b
  else a ++ "/" ++ b

/-- Whether `sep` is a prefix of `rest` (helper for the split below). -/
def sepStartsHere : List Char → List Char → Bool
  | [], _ => true
  | _ :: _, [] => false
  | c :: cs, d :: ds => c = d && sepStartsHere cs ds

/-- Fuel-driven worker for `pySplit`; the fuel is an upper bound on the
remaining characters, so the fuel-exhaustion row is never reached when
called with the input length as fuel. -/
def pySplitAux (sep : List Char) : Nat → List Char → List Char → List (List Char)
  | 0, rest, acc => [acc.reverse ++ rest]
  | _ + 1, [], acc => [acc.reverse]
  | fuel + 1, c :: rest, acc =>
      if sepStartsHere sep (c :: rest) then
        acc.reverse :: pySplitAux sep fuel (List.drop (sep.length - 1) rest) []
      else
        pySplitAux sep fuel rest (c :: acc)

/-- Python `line.split(sep)` for a non-empty separator: splits at each
non-overlapping occurrence of `sep`, scanning left to right, keeping
empty fields. -/
def pySplit (line sep : String) : List String :=
  (pySplitAux sep.toList line.toList.length line.toList []).map (fun cs => String.mk cs)

/-- The numeric value of a decimal digit list, `none` on an empty list
or a non-digit character. -/
def parseNatChars : List Char → Option Nat
  | [] => none
  | [c] => if c.isDigit then some (c.toNat - 48) else none
  | c :: cs =>
      if c.isDigit then
        match parseNatChars cs with
        | some n => some ((c.toNat - 48) * 10 ^ cs.length + n)
        | none => none
      else none

/-- Python `int(s)` for an optionally minus-signed decimal literal;
`none` models the `ValueError` on any other input. -/
def pyInt (s : String) : Option Int :=
  match s.toList with
  | '-' :: rest => (parseNatChars rest).map (fun n => -(n : Int))
  | l => (parseNatChars l).map Int.ofNat

/-- `self._num_clips` as set in `Kinetics.__init__`: one clip for
train/val, `NUM_ENSEMBLE_VIEWS * NUM_SPATIAL_CROPS` for test. -/
def numClips (cfg : Cfg) : Mode → Nat
  | Mode.train => 1
  | Mode.val => 1
  | Mode.test => cfg.TEST_NUM_ENSEMBLE_VIEWS * cfg.TEST_NUM_SPATIAL_CROPS

/-- One manifest line of `_construct_loader`: assert that splitting on
`PATH_LABEL_SEPARATOR` yields exactly two fields, then `int(label)`.
`none` models the construction-time failure (assertion error or
unparseable integer). -/
def parseLine (cfg : Cfg) (line : String) : Option (String × Int) :=
  match pySplit line cfg.DATA_PATH_LABEL_SEPARATOR with
  | [path, label] =>
      match pyInt label with
      | some l => some (path, l)
      | none => none
  | _ => none

/-- Parse every manifest line in order; any bad line aborts construction. -/
def parseAll (cfg : Cfg) : List String → Option (List (String × Int))
  | [] => some []
  | line :: rest =>
      match parseLine cfg line, parseAll cfg rest with
      | some pl, some pls => some (pl :: pls)
      | _, _ => none

/-- The four parallel per-entry arrays built by `_construct_loader`:
`_path_to_videos`, `_labels`, `_spatial_temporal_idx`, and the key set
of the `_video_meta` dict. -/
structure Rows where
  paths : List String
  labels : List Int
  stIdx : List Nat
  metaKeys : List Nat
deriving DecidableEq, Repr

/-- The entries contributed by one manifest line at position `clip_idx`:
the inner `for idx in range(self._num_clips)` loop of
`_construct_loader`. -/
def lineRows (cfg : Cfg) (mode : Mode) (clip_idx : Nat) (pl : String × Int) : Rows :=
  ⟨(List.range (numClips cfg mode)).map (fun _ => pathJoin cfg.DATA_PATH_ROOT pl.1),
   (List.range (numClips cfg mode)).map (fun _ => pl.2),
   List.range (numClips cfg mode),
   (List.range (numClips cfg mode)).map (fun idx => clip_idx * numClips cfg mode + idx)⟩

/-- Concatenation of per-line entry blocks. -/
def appendRows (r s : Rows) : Rows :=
  ⟨r.paths ++ s.paths, r.labels ++ s.labels, r.stIdx ++ s.stIdx, r.metaKeys ++ s.metaKeys⟩

/-- The outer `for clip_idx, path_label in enumerate(...)` loop of
`_construct_loader`, starting from line counter `ci`. -/
def buildRows (cfg : Cfg) (mode : Mode) : Nat → List (String × Int) → Rows
  | _, [] => ⟨[], [], [], []⟩
  | ci, pl :: rest => appendRows (lineRows cfg mode ci pl) (buildRows cfg mode (ci + 1) rest)

/-- The dataset state produced by `Kinetics.__init__`. -/
structure Kinetics where
  mode : Mode
  cfg : Cfg
  num_retries : Nat
  path_to_videos : List String
  labels : List Int
  spatial_temporal_idx : List Nat
  video_meta_keys : List Nat
  aug : Bool
  rand_erase : Bool
deriving DecidableEq, Repr

/-- `Kinetics.__init__` followed by `_construct_loader`, given the lines
of the manifest file: `none` models a construction-time failure (a line
with a field count other than 2, an unparseable label, or an empty
resulting manifest).  The `aug` / `rand_erase` flags are set exactly as
in the constructor. -/
def mkKinetics (cfg : Cfg) (mode : Mode) (fileLines : List String) (num_retries : Nat) :
    Option Kinetics :=
  match parseAll cfg fileLines with
  | none => none
  | some pls =>
      if 0 < (buildRows cfg mode 0 pls).paths.length then
        some
          { mode := mode
            cfg := cfg
            num_retries := num_retries
            path_to_videos := (buildRows cfg mode 0 pls).paths
            labels := (buildRows cfg mode 0 pls).labels
            spatial_temporal_idx := (buildRows cfg mode 0 pls).stIdx
            video_meta_keys := (buildRows cfg mode 0 pls).metaKeys
            aug := decide (mode = Mode.train) && cfg.AUG_ENABLE
            rand_erase :=
              (decide (mode = Mode.train) && cfg.AUG_ENABLE) && decide (0 < cfg.AUG_RE_PROB) }
      else none

/-- `Kinetics.num_videos`, i.e. `len(self._path_to_videos)`. -/
def numVideos (k : Kinetics) : Nat :=
  k.path_to_videos.length

/-- `Kinetics.__len__`, which returns `self.num_videos`. -/
def lenKinetics (k : Kinetics) : Nat :=
  numVideos k

/-- The tuple `(temporal_sample_index, spatial_sample_index, min_scale,
max_scale, crop_size)` resolved at the top of `__getitem__`. -/
structure SamplingDescriptor where
  temporal_sample_index : Int
  spatial_sample_index : Int
  min_scale : Int
  max_scale : Int
  crop_size : Int
deriving DecidableEq, Repr

/-- The train/val branch of `__getitem__` (short-cycle crop override and
multigrid min-scale rescale included). -/
def resolveTrainVal (cfg : Cfg) (short_cycle_idx : Option Nat) : SamplingDescriptor :=
  let crop_size : Int :=
    match short_cycle_idx with
    | some i =>
        if i = 0 ∨ i = 1 then
          round (cfg.MULTIGRID_SHORT_CYCLE_FACTORS.getD i 0 * cfg.MULTIGRID_DEFAULT_S)
        else cfg.DATA_TRAIN_CROP_SIZE
    | none => cfg.DATA_TRAIN_CROP_SIZE
  let min_scale : Int :=
    if 0 < cfg.MULTIGRID_DEFAULT_S then
      round (((cfg.DATA_TRAIN_JITTER_SCALES.getD 0 0 : ℚ) * (crop_size : ℚ)) /
        cfg.MULTIGRID_DEFAULT_S)
    else cfg.DATA_TRAIN_JITTER_SCALES.getD 0 0
  ⟨-1, -1, min_scale, cfg.DATA_TRAIN_JITTER_SCALES.getD 1 0, crop_size⟩

/-- The test branch of `__getitem__`, applied to
`s = self._spatial_temporal_idx[index]`. -/
def resolveTest (cfg : Cfg) (s : Nat) : SamplingDescriptor :=
  if 1 < cfg.TEST_NUM_SPATIAL_CROPS then
    ⟨(s / cfg.TEST_NUM_SPATIAL_CROPS : Nat), (s % cfg.TEST_NUM_SPATIAL_CROPS : Nat),
     cfg.DATA_TEST_CROP_SIZE, cfg.DATA_TEST_CROP_SIZE, cfg.DATA_TEST_CROP_SIZE⟩
  else
    ⟨(s / cfg.TEST_NUM_SPATIAL_CROPS : Nat), 1,
     cfg.DATA_TRAIN_JITTER_SCALES.getD 0 0, cfg.DATA_TRAIN_JITTER_SCALES.getD 0 0,
     cfg.DATA_TEST_CROP_SIZE⟩

/-- Sampling-descriptor resolution of `__getitem__` after the index has
been unpacked. -/
def resolveDescriptor (k : Kinetics) (index : Nat) (short_cycle_idx : Option Nat) :
    SamplingDescriptor :=
  match k.mode with
  | Mode.train => resolveTrainVal k.cfg short_cycle_idx
  | Mode.val => resolveTrainVal k.cfg short_cycle_idx
  | Mode.test => resolveTest k.cfg (k.spatial_temporal_idx.getD index 0)

/-- The argument of `__getitem__`: a plain index, or the tuple
`(index, short_cycle_idx)` handed over when the short-cycle schedule is
active. -/
inductive ItemKey
  | plain (index : Nat)
  | shortCycle (index : Nat) (short_cycle_idx : Nat)
deriving DecidableEq, Repr

/-- The tuple unpacking at the top of `__getitem__`. -/
def unpackKey : ItemKey → Nat × Option Nat
  | ItemKey.plain i => (i, none)
  | ItemKey.shortCycle i s => (i, some s)

/-- Oracle environment for the external collaborators of the retry loop:
video-container acquisition, the decoder, the random number source, and
the opaque tensor transformations.  `acquireOk t i` is true when
`container.get_video_container` on attempt `t` at candidate index `i`
yields a container (no exception, not `None`); `decodeOk t i` is true
when `decoder.decode` then yields non-`None` frames; `randIdx t` is the
value drawn by `random.randint(0, len(self._path_to_videos) - 1)` on
attempt `t`. -/
structure Env (F : Type) where
  acquireOk : Nat → Nat → Bool
  decodeOk : Nat → Nat → Bool
  decodeFrames : Nat → Nat → F
  randIdx : Nat → Nat
  augFrame : Nat → F → F
  packAug : F → F
  packMain : F → F
  normSpatial : F → F

/-- One iteration of the retry loop: the attempt counter `i_try`, the
candidate index used by this attempt, whether acquisition succeeded,
whether decode succeeded, and whether the replacement policy ran after
this attempt. -/
structure AttemptRec where
  i_try : Nat
  index : Nat
  acquired : Bool
  decoded : Bool
  replacedAfter : Bool
deriving DecidableEq, Repr

/-- Default attempt record, used only as a `getD` fallback. -/
def defaultAttempt : AttemptRec :=
  ⟨0, 0, false, false, false⟩

/-- The value returned by a successful `__getitem__`: either the scalar
form `(frames, label, index, {})` or, under multi-sample augmentation,
the list form `(frame_list, label_list, index_list, {})`.  The trailing
empty dict carries no information and is omitted. -/
inductive Item (F : Type)
  | single (frames : F) (label : Int) (index : Nat)
  | multi (frame_list : List F) (label_list : List Int) (index_list : List Nat)
deriving DecidableEq, Repr

/-- Whether the item is the multi-sample list form. -/
def itemIsMulti {F : Type} : Item F → Bool
  | Item.single _ _ _ => false
  | Item.multi _ _ _ => true

/-- The label carried by the item (first element in the list form). -/
def itemServedLabel {F : Type} : Item F → Int
  | Item.single _ l _ => l
  | Item.multi _ ll _ => ll.getD 0 0

/-- The logical index carried by the item (first element in the list
form). -/
def itemServedIndex {F : Type} : Item F → Nat
  | Item.single _ _ i => i
  | Item.multi _ _ il => il.getD 0 0

/-- The label list of the item (singleton for the scalar form). -/
def itemLabelList {F : Type} : Item F → List Int
  | Item.single _ l _ => [l]
  | Item.multi _ ll _ => ll

/-- The index list of the item (singleton for the scalar form). -/
def itemIndexList {F : Type} : Item F → List Nat
  | Item.single _ _ i => [i]
  | Item.multi _ _ il => il

/-- The frame list of the item (singleton for the scalar form). -/
def itemFrameList {F : Type} : Item F → List F
  | Item.single f _ _ => [f]
  | Item.multi fl _ _ => fl

/-- Outcome of the retry loop: a returned item, or the `RuntimeError`
raised by the for-else branch, which formats
`self._path_to_videos[error_index]` and `self._num_retries`. -/
inductive GetItemOutcome (F : Type)
  | ok (item : Item F)
  | exhausted (error_index : Nat) (retries : Nat)
deriving DecidableEq, Repr

/-- The item assembled after a decode succeeds at attempt `i_try` with
candidate index `index`: the augmentation dispatch and item-packing tail
of `__getitem__` (lines after the decode `None` check). -/
def successItem {F : Type} (k : Kinetics) (env : Env F) (i_try index : Nat) : Item F :=
  if k.aug then
    if 1 < k.cfg.AUG_NUM_SAMPLE then
      Item.multi
        ((List.range k.cfg.AUG_NUM_SAMPLE).map
          (fun s => env.packAug (env.augFrame s (env.decodeFrames i_try index))))
        ((List.range k.cfg.AUG_NUM_SAMPLE).map (fun _ => k.labels.getD index 0))
        ((List.range k.cfg.AUG_NUM_SAMPLE).map (fun _ => index))
    else
      Item.single (env.packMain (env.augFrame 0 (env.decodeFrames i_try index)))
        (k.labels.getD index 0) index
  else
    Item.single (env.packMain (env.normSpatial (env.decodeFrames i_try index)))
      (k.labels.getD index 0) index

/-- The replacement-policy guard `i_try > self._num_retries // 2`. -/
def replaceAfter (k : Kinetics) (i_try : Nat) : Bool :=
  decide (k.num_retries / 2 < i_try)

/-- The replacement candidate: `random.randint(0, len - 1)` outside test
mode, `index + 1` in test mode. -/
def nextIndex {F : Type} (k : Kinetics) (env : Env F) (i_try index : Nat) : Nat :=
  match k.mode with
  | Mode.test => index + 1
  | Mode.train => env.randIdx i_try
  | Mode.val => env.randIdx i_try

/-- The retry loop `for i_try in range(self._num_retries)` of
`__getitem__`, with `fuel` remaining iterations and current attempt
counter `i_try`.  Returns the list of attempts and the loop outcome;
when the fuel runs out the for-else branch raises, naming the current
(post-replacement) candidate index.  Index accesses are total here, so
this is the idealised candidate trace: the `IndexError` that Python
raises as soon as a candidate index leaves the manifest range (at the
path lookup inside the loop body, or while the for-else formats its
message) is accounted for by `getItemResult` below, which truncates the
trace at the first out-of-range attempt. -/
def retryAux {F : Type} (k : Kinetics) (env : Env F) :
    Nat → Nat → Nat → List AttemptRec × GetItemOutcome F
  | 0, _, index => ([], GetItemOutcome.exhausted index k.num_retries)
  | fuel + 1, i_try, index =>
      if env.acquireOk i_try index && env.decodeOk i_try index then
        ([⟨i_try, index, true, true, false⟩],
         GetItemOutcome.ok (successItem k env i_try index))
      else
        (⟨i_try, index, env.acquireOk i_try index, false, replaceAfter k i_try⟩ ::
           (retryAux k env fuel (i_try + 1)
             (if replaceAfter k i_try then nextIndex k env i_try index else index)).1,
         (retryAux k env fuel (i_try + 1)
             (if replaceAfter k i_try then nextIndex k env i_try index else index)).2)

/-- The full retry loop of `__getitem__` on requested index `index`. -/
def getItemLoop {F : Type} (k : Kinetics) (env : Env F) (index : Nat) :
    List AttemptRec × GetItemOutcome F :=
  retryAux k env k.num_retries 0 index

/-- `__getitem__`: unpack the key, resolve the sampling descriptor, and
run the retry loop. -/
def getItem {F : Type} (k : Kinetics) (env : Env F) (key : ItemKey) :
    SamplingDescriptor × (List AttemptRec × GetItemOutcome F) :=
  (resolveDescriptor k (unpackKey key).1 (unpackKey key).2,
   getItemLoop k env (unpackKey key).1)

/-- The possible outcomes of a `__getitem__` call as Python observes
them: a returned item; the for-else `RuntimeError` carrying the
formatted video path and the retry count; or an uncaught `IndexError`
from a `self._path_to_videos[index]` lookup at an out-of-range
candidate index. -/
inductive PyResult (F : Type)
  | item (it : Item F)
  | runtimeErr (path : String) (retries : Nat)
  | indexErr (index : Nat)
deriving DecidableEq, Repr

/-- The Python-accurate outcome of a `__getitem__` call.  The loop body
looks the candidate path up on every attempt (inside the `try` and again
in the logging calls), so the first attempt whose candidate index is out
of range aborts the call with an uncaught `IndexError` — control never
reaches the replacement step or any later attempt, and the trailing
entries of the modelled attempt trace are discarded.  If every attempt
stays in range, the loop outcome stands: a decoded item is returned,
and on exhaustion the for-else formats
`self._path_to_videos[error_index]`, raising the `RuntimeError` when
that index is in range and an `IndexError` from the formatting itself
otherwise.  (The `_video_meta[index]` dict lookup cannot fail for a
constructed dataset, whose key set is exactly the valid indices.) -/
def getItemResult {F : Type} (k : Kinetics) (env : Env F) (idx : Nat) : PyResult F :=
  match (getItemLoop k env idx).1.find? (fun a => decide (numVideos k ≤ a.index)) with
  | some a => PyResult.indexErr a.index
  | none =>
      match (getItemLoop k env idx).2 with
      | GetItemOutcome.ok it => PyResult.item it
      | GetItemOutcome.exhausted e n =>
          if e < numVideos k then PyResult.runtimeErr (k.path_to_videos.getD e "") n
          else PyResult.indexErr e

/-- The candidate-index chain under the assumption that every attempt
fails: `failChain k env n t index` is the candidate index reached after
`n` further failed attempts starting from attempt counter `t`. -/
def failChain {F : Type} (k : Kinetics) (env : Env F) : Nat → Nat → Nat → Nat
  | 0, _, index => index
  | fuel + 1, i_try, index =>
      failChain k env fuel (i_try + 1)
        (if replaceAfter k i_try then nextIndex k env i_try index else index)

/-- Number of attempt counters in `[i_try, i_try + fuel)` whose failure
triggers the replacement policy. -/
def replCount (k : Kinetics) : Nat → Nat → Nat
  | 0, _ => 0
  | fuel + 1, i_try => (if replaceAfter k i_try then 1 else 0) + replCount k fuel (i_try + 1)

/-- A minimal test-mode configuration with one ensemble view and one
spatial crop, space-separated manifest lines and no augmentation. -/
def cfgCE : Cfg :=
  { TEST_NUM_ENSEMBLE_VIEWS := 1
    TEST_NUM_SPATIAL_CROPS := 1
    DATA_TRAIN_JITTER_SCALES := [256, 320]
    DATA_TRAIN_CROP_SIZE := 224
    DATA_TEST_CROP_SIZE := 256
    DATA_PATH_LABEL_SEPARATOR := " "
    DATA_PATH_ROOT := ""
    MULTIGRID_SHORT_CYCLE_FACTORS := [0, 0]
    MULTIGRID_DEFAULT_S := 0
    AUG_ENABLE := false
    AUG_RE_PROB := 0
    AUG_NUM_SAMPLE := 1 }

/-- The test-mode dataset built from a two-line manifest with
`num_retries = 3`. -/
def kCE : Kinetics :=
  { mode := Mode.test
    cfg := cfgCE
    num_retries := 3
    path_to_videos := ["a.mp4", "b.mp4"]
    labels := [0, 1]
    spatial_temporal_idx := [0, 0]
    video_meta_keys := [0, 1]
    aug := false
    rand_erase := false }

/-- Same dataset as `kCE` but with `num_retries = 6`. -/
def kCE9 : Kinetics :=
  { kCE with num_retries := 6 }

/-- Environment in which every acquisition attempt fails. -/
def envFail : Env Unit :=
  ⟨fun _ _ => false, fun _ _ => false, fun _ _ => (), fun _ => 0, fun _ f => f, id, id, id⟩

/-- Environment in which every acquisition and decode attempt succeeds. -/
def envOK : Env Unit :=
  ⟨fun _ _ => true, fun _ _ => true, fun _ _ => (), fun _ => 0, fun _ f => f, id, id, id⟩

/-- Environment in which only attempt 4 succeeds and each random
replacement draw is index 2. -/
def env5 : Env Unit :=
  ⟨fun t _ => decide (t = 4), fun _ _ => true, fun _ _ => (), fun _ => 2, fun _ f => f,
   id, id, id⟩

/-- Test-mode configuration with two ensemble views, three spatial crops
and a comma separator (the worked example of the specification). -/
def cfgT : Cfg :=
  { TEST_NUM_ENSEMBLE_VIEWS := 2
    TEST_NUM_SPATIAL_CROPS := 3
    DATA_TRAIN_JITTER_SCALES := [256, 320]
    DATA_TRAIN_CROP_SIZE := 224
    DATA_TEST_CROP_SIZE := 256
    DATA_PATH_LABEL_SEPARATOR := ","
    DATA_PATH_ROOT := ""
    MULTIGRID_SHORT_CYCLE_FACTORS := [0, 0]
    MULTIGRID_DEFAULT_S := 0
    AUG_ENABLE := false
    AUG_RE_PROB := 0
    AUG_NUM_SAMPLE := 1 }

/-- The six-entry test-mode dataset built from the one-line manifest
`videos/a.mp4,7` under `cfgT`. -/
def kT : Kinetics :=
  { mode := Mode.test
    cfg := cfgT
    num_retries := 20
    path_to_videos := ["videos/a.mp4", "videos/a.mp4", "videos/a.mp4", "videos/a.mp4",
      "videos/a.mp4", "videos/a.mp4"]
    labels := [7, 7, 7, 7, 7, 7]
    spatial_temporal_idx := [0, 1, 2, 3, 4, 5]
    video_meta_keys := [0, 1, 2, 3, 4, 5]
    aug := false
    rand_erase := false }

/-- Train-mode configuration without augmentation. -/
def cfgTr : Cfg :=
  { cfgCE with DATA_PATH_LABEL_SEPARATOR := " " }

/-- Three-video train-mode dataset with `num_retries = 5`. -/
def kTr : Kinetics :=
  { mode := Mode.train
    cfg := cfgTr
    num_retries := 5
    path_to_videos := ["x", "y", "z"]
    labels := [10, 20, 30]
    spatial_temporal_idx := [0, 0, 0]
    video_meta_keys := [0, 1, 2]
    aug := false
    rand_erase := false }

/-- Train-mode configuration with policy augmentation enabled and three
samples per item. -/
def cfgA : Cfg :=
  { cfgCE with AUG_ENABLE := true, AUG_NUM_SAMPLE := 3 }

/-- One-video train-mode dataset under `cfgA` (so `aug` is set). -/
def kA : Kinetics :=
  { mode := Mode.train
    cfg := cfgA
    num_retries := 20
    path_to_videos := ["v"]
    labels := [5]
    spatial_temporal_idx := [0]
    video_meta_keys := [0]
    aug := true
    rand_erase := false }

/-- One-video val-mode dataset under `cfgA` (augmentation configured but
mode is not train, so `aug` stays unset). -/
def kVal : Kinetics :=
  { mode := Mode.val
    cfg := cfgA
    num_retries := 20
    path_to_videos := ["v"]
    labels := [7]
    spatial_temporal_idx := [0]
    video_meta_keys := [0]
    aug := false
    rand_erase := false }

/-- Train-mode configuration with an active multigrid schedule:
short-cycle factors 2 and 1, default scale 8, jitter scales 4 to 320. -/
def cfgSC : Cfg :=
  { TEST_NUM_ENSEMBLE_VIEWS := 1
    TEST_NUM_SPATIAL_CROPS := 1
    DATA_TRAIN_JITTER_SCALES := [4, 320]
    DATA_TRAIN_CROP_SIZE := 224
    DATA_TEST_CROP_SIZE := 256
    DATA_PATH_LABEL_SEPARATOR := " "
    DATA_PATH_ROOT := ""
    MULTIGRID_SHORT_CYCLE_FACTORS := [2, 1]
    MULTIGRID_DEFAULT_S := 8
    AUG_ENABLE := false
    AUG_RE_PROB := 0
    AUG_NUM_SAMPLE := 1 }

/-- One-video train-mode dataset under `cfgSC`. -/
def kSC : Kinetics :=
  { mode := Mode.train
    cfg := cfgSC
    num_retries := 20
    path_to_videos := ["v"]
    labels := [1]
    spatial_temporal_idx := [0]
    video_meta_keys := [0]
    aug := false
    rand_erase := false }

theorem retryAux_succ_eq {F : Type} (k : Kinetics) (env : Env F) (n t idx : Nat)
    (h : (env.acquireOk t idx && env.decodeOk t idx) = true) :
    retryAux k env (n + 1) t idx =
      ([⟨t, idx, true, true, false⟩], GetItemOutcome.ok (successItem k env t idx)) := by
  simp [retryAux, h]

theorem retryAux_fail_eq {F : Type} (k : Kinetics) (env : Env F) (n t idx : Nat)
    (h : ¬ (env.acquireOk t idx && env.decodeOk t idx) = true) :
    retryAux k env (n + 1) t idx =
      (⟨t, idx, env.acquireOk t idx, false, replaceAfter k t⟩ ::
        (retryAux k env n (t + 1)
          (if replaceAfter k t then nextIndex k env t idx else idx)).1,
       (retryAux k env n (t + 1)
          (if replaceAfter k t then nextIndex k env t idx else idx)).2) := by
  simp [retryAux, h]

theorem retryAux_iTry_le {F : Type} (k : Kinetics) (env : Env F) :
    ∀ fuel t idx, ∀ a ∈ (retryAux k env fuel t idx).1, t ≤ a.i_try := by
  intro fuel
  induction fuel with
  | zero => intro t idx a ha; simp [retryAux] at ha
  | succ n ih =>
      intro t idx a ha
      by_cases h : (env.acquireOk t idx && env.decodeOk t idx) = true
      · simp [retryAux, h] at ha
        subst ha
        exact Nat.le_refl t
      · simp [retryAux, h] at ha
        rcases ha with rfl | ha
        · exact Nat.le_refl t
        · exact Nat.le_trans (Nat.le_succ t) (ih (t + 1) _ a ha)

theorem retryAux_replacedAfter {F : Type} (k : Kinetics) (env : Env F) :
    ∀ fuel t idx, ∀ a ∈ (retryAux k env fuel t idx).1,
      a.replacedAfter = (!a.decoded && replaceAfter k a.i_try) := by
  intro fuel
  induction fuel with
  | zero => intro t idx a ha; simp [retryAux] at ha
  | succ n ih =>
      intro t idx a ha
      by_cases h : (env.acquireOk t idx && env.decodeOk t idx) = true
      · simp [retryAux, h] at ha
        subst ha
        rfl
      · simp [retryAux, h] at ha
        rcases ha with rfl | ha
        · rfl
        · exact ih (t + 1) _ a ha

theorem retryAux_index_stable {F : Type} (k : Kinetics) (env : Env F) :
    ∀ fuel t idx, ∀ a ∈ (retryAux k env fuel t idx).1,
      a.i_try ≤ k.num_retries / 2 → a.index = idx := by
  intro fuel
  induction fuel with
  | zero => intro t idx a ha; simp [retryAux] at ha
  | succ n ih =>
      intro t idx a ha hq
      by_cases h : (env.acquireOk t idx && env.decodeOk t idx) = true
      · simp [retryAux, h] at ha
        subst ha
        rfl
      · simp [retryAux, h] at ha
        rcases ha with rfl | ha
        · rfl
        · have ht : t + 1 ≤ a.i_try := retryAux_iTry_le k env n (t + 1) _ a ha
          have htq : ¬ k.num_retries / 2 < t := by omega
          have hrep : replaceAfter k t = false := by
            simp [replaceAfter, htq]
          rw [hrep] at ha
          simp at ha
          exact ih (t + 1) idx a ha hq

theorem retryAux_head_index {F : Type} (k : Kinetics) (env : Env F) :
    ∀ fuel t idx, (retryAux k env fuel t idx).1 ≠ [] →
      ((retryAux k env fuel t idx).1.getD 0 defaultAttempt).index = idx ∧
      ((retryAux k env fuel t idx).1.getD 0 defaultAttempt).i_try = t := by
  intro fuel t idx hne
  match fuel with
  | 0 => simp [retryAux] at hne
  | n + 1 =>
      by_cases h : (env.acquireOk t idx && env.decodeOk t idx) = true
      · simp [retryAux, h]
      · simp [retryAux, h]

theorem retryAux_length_pos {F : Type} (k : Kinetics) (env : Env F) :
    ∀ fuel t idx, 0 < fuel → (retryAux k env fuel t idx).1 ≠ [] := by
  intro fuel t idx hf
  match fuel with
  | n + 1 =>
      by_cases h : (env.acquireOk t idx && env.decodeOk t idx) = true
      · simp [retryAux, h]
      · simp [retryAux, h]

theorem retryAux_chain {F : Type} (k : Kinetics) (env : Env F) :
    ∀ fuel t idx j, j + 1 < (retryAux k env fuel t idx).1.length →
      ((retryAux k env fuel t idx).1.getD (j + 1) defaultAttempt).index =
        (if ((retryAux k env fuel t idx).1.getD j defaultAttempt).replacedAfter then
          nextIndex k env ((retryAux k env fuel t idx).1.getD j defaultAttempt).i_try
            ((retryAux k env fuel t idx).1.getD j defaultAttempt).index
        else ((retryAux k env fuel t idx).1.getD j defaultAttempt).index) := by
  intro fuel
  induction fuel with
  | zero => intro t idx j hj; simp [retryAux] at hj
  | succ n ih =>
      intro t idx j hj
      by_cases h : (env.acquireOk t idx && env.decodeOk t idx) = true
      · rw [retryAux_succ_eq k env n t idx h] at hj
        simp at hj
      · rw [retryAux_fail_eq k env n t idx h] at hj ⊢
        match j with
        | 0 =>
            simp only [List.length_cons] at hj
            have hlen : 0 <
                (retryAux k env n (t + 1)
                  (if replaceAfter k t then nextIndex k env t idx else idx)).1.length := by
              omega
            have hne := List.length_pos.mp hlen
            have hhead := retryAux_head_index k env n (t + 1)
              (if replaceAfter k t then nextIndex k env t idx else idx) hne
            simp only [List.getD_cons_succ, List.getD_cons_zero]
            rw [hhead.1]
        | j' + 1 =>
            simp only [List.length_cons] at hj
            have hj' : j' + 1 <
                (retryAux k env n (t + 1)
                  (if replaceAfter k t then nextIndex k env t idx else idx)).1.length := by
              omega
            have := ih (t + 1) (if replaceAfter k t then nextIndex k env t idx else idx) j' hj'
            simp only [List.getD_cons_succ]
            exact this

theorem retryAux_allfail {F : Type} (k : Kinetics) (env : Env F)
    (hf : ∀ t j, (env.acquireOk t j && env.decodeOk t j) = false) :
    ∀ fuel t idx,
      (retryAux k env fuel t idx).1.length = fuel ∧
      (retryAux k env fuel t idx).2 =
        GetItemOutcome.exhausted (failChain k env fuel t idx) k.num_retries := by
  intro fuel
  induction fuel with
  | zero => intro t idx; simp [retryAux, failChain]
  | succ n ih =>
      intro t idx
      have h : ¬ (env.acquireOk t idx && env.decodeOk t idx) = true := by
        simp [hf t idx]
      rw [retryAux_fail_eq k env n t idx h]
      have := ih (t + 1) (if replaceAfter k t then nextIndex k env t idx else idx)
      refine ⟨by simpa using this.1, ?_⟩
      rw [this.2]
      rfl

theorem retryAux_allfail_getD {F : Type} (k : Kinetics) (env : Env F)
    (hf : ∀ t j, (env.acquireOk t j && env.decodeOk t j) = false) :
    ∀ fuel t idx j, j < fuel →
      ((retryAux k env fuel t idx).1.getD j defaultAttempt).index = failChain k env j t idx ∧
      ((retryAux k env fuel t idx).1.getD j defaultAttempt).i_try = t + j := by
  intro fuel
  induction fuel with
  | zero => intro t idx j hj; omega
  | succ n ih =>
      intro t idx j hj
      have h : ¬ (env.acquireOk t idx && env.decodeOk t idx) = true := by
        simp [hf t idx]
      rw [retryAux_fail_eq k env n t idx h]
      match j with
      | 0 => simp [failChain]
      | j' + 1 =>
          have hj' : j' < n := by omega
          have := ih (t + 1) (if replaceAfter k t then nextIndex k env t idx else idx) j' hj'
          simp only [List.getD_cons_succ]
          refine ⟨?_, by rw [this.2]; omega⟩
          rw [this.1]
          rfl

theorem retryAux_ok_getLast {F : Type} (k : Kinetics) (env : Env F) :
    ∀ fuel t idx it d, (retryAux k env fuel t idx).2 = GetItemOutcome.ok it →
      ((retryAux k env fuel t idx).1.getLastD d).decoded = true ∧
      it = successItem k env ((retryAux k env fuel t idx).1.getLastD d).i_try
        ((retryAux k env fuel t idx).1.getLastD d).index := by
  intro fuel
  induction fuel with
  | zero => intro t idx it d hit; simp [retryAux] at hit
  | succ n ih =>
      intro t idx it d hit
      by_cases h : (env.acquireOk t idx && env.decodeOk t idx) = true
      · rw [retryAux_succ_eq k env n t idx h] at hit ⊢
        simp at hit
        subst hit
        exact ⟨rfl, rfl⟩
      · rw [retryAux_fail_eq k env n t idx h] at hit ⊢
        simp only [List.getLastD_cons]
        exact ih (t + 1) (if replaceAfter k t then nextIndex k env t idx else idx) it _ hit

theorem retryAux_first_success {F : Type} (k : Kinetics) (env : Env F) (fuel t idx : Nat)
    (h : (env.acquireOk t idx && env.decodeOk t idx) = true) (hf : 0 < fuel) :
    retryAux k env fuel t idx =
      ([⟨t, idx, true, true, false⟩], GetItemOutcome.ok (successItem k env t idx)) := by
  match fuel with
  | n + 1 => exact retryAux_succ_eq k env n t idx h

theorem retryAux_test_bound {F : Type} (k : Kinetics) (env : Env F)
    (hm : k.mode = Mode.test) :
    ∀ fuel t idx,
      (∀ a ∈ (retryAux k env fuel t idx).1, a.index ≤ idx + replCount k fuel t) ∧
      (∀ e n, (retryAux k env fuel t idx).2 = GetItemOutcome.exhausted e n →
        e ≤ idx + replCount k fuel t) := by
  intro fuel
  induction fuel with
  | zero =>
      intro t idx
      constructor
      · intro a ha; simp [retryAux] at ha
      · intro e n he
        simp [retryAux] at he
        omega
  | succ m ih =>
      intro t idx
      have hnext : ∀ i, nextIndex k env t i = i + 1 := by
        intro i
        simp [nextIndex, hm]
      have hstep : (if replaceAfter k t then nextIndex k env t idx else idx) ≤
          idx + (if replaceAfter k t then 1 else 0) := by
        by_cases hr : replaceAfter k t
        · simp [hr, hnext]
        · simp [hr]
      have hcnt : idx + (if replaceAfter k t then 1 else 0) + replCount k m (t + 1) =
          idx + replCount k (m + 1) t := by
        simp [replCount]
        omega
      by_cases h : (env.acquireOk t idx && env.decodeOk t idx) = true
      · rw [retryAux_succ_eq k env m t idx h]
        constructor
        · intro a ha
          simp at ha
          subst ha
          exact Nat.le_add_right idx _
        · intro e n he; simp at he
      · rw [retryAux_fail_eq k env m t idx h]
        have := ih (t + 1) (if replaceAfter k t then nextIndex k env t idx else idx)
        constructor
        · intro a ha
          simp only [List.mem_cons] at ha
          rcases ha with rfl | ha
          · exact Nat.le_add_right idx _
          · have := this.1 a ha
            omega
        · intro e n he
          have := this.2 e n he
          omega

theorem retryAux_nontest_bound {F : Type} (k : Kinetics) (env : Env F) (N : Nat)
    (hm : ¬ k.mode = Mode.test) (hr : ∀ t, env.randIdx t < N) :
    ∀ fuel t idx, idx < N →
      (∀ a ∈ (retryAux k env fuel t idx).1, a.index < N) ∧
      (∀ e n, (retryAux k env fuel t idx).2 = GetItemOutcome.exhausted e n → e < N) := by
  intro fuel
  induction fuel with
  | zero =>
      intro t idx hidx
      constructor
      · intro a ha; simp [retryAux] at ha
      · intro e n he
        simp [retryAux] at he
        omega
  | succ m ih =>
      intro t idx hidx
      have hnext : nextIndex k env t idx < N := by
        cases hmode : k.mode with
        | test => exact absurd hmode hm
        | train => simpa [nextIndex, hmode] using hr t
        | val => simpa [nextIndex, hmode] using hr t
      have hstep : (if replaceAfter k t then nextIndex k env t idx else idx) < N := by
        by_cases hrep : replaceAfter k t
        · simpa [hrep] using hnext
        · simpa [hrep] using hidx
      by_cases h : (env.acquireOk t idx && env.decodeOk t idx) = true
      · rw [retryAux_succ_eq k env m t idx h]
        constructor
        · intro a ha
          simp at ha
          subst ha
          exact hidx
        · intro e n he; simp at he
      · rw [retryAux_fail_eq k env m t idx h]
        have := ih (t + 1) (if replaceAfter k t then nextIndex k env t idx else idx) hstep
        constructor
        · intro a ha
          simp only [List.mem_cons] at ha
          rcases ha with rfl | ha
          · exact hidx
          · exact this.1 a ha
        · exact this.2

theorem replCount_eq (k : Kinetics) :
    ∀ fuel t, replCount k fuel t = (t + fuel) - max t (k.num_retries / 2 + 1) := by
  intro fuel
  induction fuel with
  | zero => intro t; simp [replCount]
  | succ n ih =>
      intro t
      have := ih (t + 1)
      by_cases h : k.num_retries / 2 < t
      · have hrep : replaceAfter k t = true := by simp [replaceAfter, h]
        rw [replCount, hrep, this]
        simp only [if_true]
        omega
      · have hrep : replaceAfter k t = false := by simp [replaceAfter, h]
        rw [replCount, hrep, this]
        simp
        omega

theorem buildRows_lengths (cfg : Cfg) (mode : Mode) :
    ∀ pls ci,
      (buildRows cfg mode ci pls).paths.length = pls.length * numClips cfg mode ∧
      (buildRows cfg mode ci pls).labels.length = pls.length * numClips cfg mode ∧
      (buildRows cfg mode ci pls).stIdx.length = pls.length * numClips cfg mode := by
  intro pls
  induction pls with
  | nil => intro ci; simp [buildRows]
  | cons pl rest ih =>
      intro ci
      have := ih (ci + 1)
      simp only [buildRows, appendRows, lineRows, List.length_append, List.length_map,
        List.length_range, List.length_cons, Nat.succ_mul]
      omega

theorem buildRows_metaKeys (cfg : Cfg) (mode : Mode) :
    ∀ pls ci,
      (buildRows cfg mode ci pls).metaKeys =
        List.range' (ci * numClips cfg mode) (pls.length * numClips cfg mode) := by
  intro pls
  induction pls with
  | nil => intro ci; simp [buildRows]
  | cons pl rest ih =>
      intro ci
      have hmap : (List.range (numClips cfg mode)).map
          (fun idx => ci * numClips cfg mode + idx) =
          List.range' (ci * numClips cfg mode) (numClips cfg mode) := by
        rw [List.range'_eq_map_range]
      simp only [buildRows, appendRows, lineRows, hmap, ih (ci + 1), List.length_cons]
      have h1 : (ci + 1) * numClips cfg mode =
          ci * numClips cfg mode + 1 * numClips cfg mode := by ring
      have h2 : (rest.length + 1) * numClips cfg mode =
          rest.length * numClips cfg mode + numClips cfg mode := by ring
      rw [h1, List.range'_append, h2]

theorem buildRows_getD (cfg : Cfg) (mode : Mode) :
    ∀ pls ci li j, li < pls.length → j < numClips cfg mode →
      (buildRows cfg mode ci pls).paths.getD (li * numClips cfg mode + j) "" =
        pathJoin cfg.DATA_PATH_ROOT (pls.getD li ("", 0)).1 ∧
      (buildRows cfg mode ci pls).labels.getD (li * numClips cfg mode + j) 0 =
        (pls.getD li ("", 0)).2 ∧
      (buildRows cfg mode ci pls).stIdx.getD (li * numClips cfg mode + j) 0 = j := by
  intro pls
  induction pls with
  | nil => intro ci li j hli hj; simp at hli
  | cons pl rest ih =>
      intro ci li j hli hj
      match li with
      | 0 =>
          simp only [Nat.zero_mul, Nat.zero_add, buildRows, appendRows, lineRows,
            List.getD_cons_zero]
          have hlenP : j < ((List.range (numClips cfg mode)).map
              (fun _ => pathJoin cfg.DATA_PATH_ROOT pl.1)).length := by
            simpa using hj
          have hlenL : j < ((List.range (numClips cfg mode)).map
              (fun _ => (pl.2 : Int))).length := by
            simpa using hj
          have hlenS : j < (List.range (numClips cfg mode)).length := by
            simpa using hj
          rw [List.getD_append _ _ _ _ hlenP, List.getD_append _ _ _ _ hlenL,
            List.getD_append _ _ _ _ hlenS]
          refine ⟨?_, ?_, ?_⟩
          · rw [List.getD_eq_getElem?_getD]
            simp [List.getElem?_replicate, List.getElem?_range hj, hj]
          · rw [List.getD_eq_getElem?_getD]
            simp [List.getElem?_replicate, List.getElem?_range hj, hj]
          · rw [List.getD_eq_getElem?_getD]
            simp [List.getElem?_range hj]
      | li' + 1 =>
          have hli' : li' < rest.length := by simpa using hli
          have harith : (li' + 1) * numClips cfg mode + j =
              numClips cfg mode + (li' * numClips cfg mode + j) := by ring
          simp only [buildRows, appendRows, lineRows, harith, List.getD_cons_succ]
          have hlenP : ((List.range (numClips cfg mode)).map
              (fun _ => pathJoin cfg.DATA_PATH_ROOT pl.1)).length ≤
              numClips cfg mode + (li' * numClips cfg mode + j) := by
            simp
          have hlenL : ((List.range (numClips cfg mode)).map
              (fun _ => (pl.2 : Int))).length ≤
              numClips cfg mode + (li' * numClips cfg mode + j) := by
            simp
          have hlenS : (List.range (numClips cfg mode)).length ≤
              numClips cfg mode + (li' * numClips cfg mode + j) := by
            simp
          rw [List.getD_append_right _ _ _ _ hlenP, List.getD_append_right _ _ _ _ hlenL,
            List.getD_append_right _ _ _ _ hlenS]
          simpa using ih (ci + 1) li' j hli' hj

theorem parseAll_length (cfg : Cfg) :
    ∀ lines pls, parseAll cfg lines = some pls → pls.length = lines.length := by
  intro lines
  induction lines with
  | nil => intro pls h; simp [parseAll] at h; simp [← h]
  | cons line rest ih =>
      intro pls h
      simp only [parseAll] at h
      match hm : parseLine cfg line, hr : parseAll cfg rest with
      | some pl, some pls' =>
          rw [hm, hr] at h
          simp at h
          rw [← h]
          simpa using ih pls' hr
      | some pl, none => rw [hm, hr] at h; simp at h
      | none, some pls' => rw [hm, hr] at h; simp at h
      | none, none => rw [hm, hr] at h; simp at h

theorem parseLine_badsplit (cfg : Cfg) (line : String)
    (h : (pySplit line cfg.DATA_PATH_LABEL_SEPARATOR).length ≠ 2) :
    parseLine cfg line = none := by
  simp only [parseLine]
  rcases hs : pySplit line cfg.DATA_PATH_LABEL_SEPARATOR with _ | ⟨p, _ | ⟨lab, _ | ⟨x, xs⟩⟩⟩
  · rfl
  · rfl
  · rw [hs] at h; simp at h
  · rfl

theorem parseAll_badline (cfg : Cfg) :
    ∀ lines line, line ∈ lines →
      (pySplit line cfg.DATA_PATH_LABEL_SEPARATOR).length ≠ 2 →
      parseAll cfg lines = none := by
  intro lines
  induction lines with
  | nil => intro line hmem; simp at hmem
  | cons l rest ih =>
      intro line hmem hbad
      simp only [List.mem_cons] at hmem
      rcases hmem with rfl | hmem
      · have := parseLine_badsplit cfg line hbad
        simp [parseAll, this]
      · have := ih line hmem hbad
        simp only [parseAll, this]
        match hm : parseLine cfg l with
        | some pl => rfl
        | none => rfl

theorem mkKinetics_fields (cfg : Cfg) (mode : Mode) (lines : List String) (r : Nat)
    (k : Kinetics) (h : mkKinetics cfg mode lines r = some k) :
    ∃ pls, parseAll cfg lines = some pls ∧
      k.path_to_videos = (buildRows cfg mode 0 pls).paths ∧
      k.labels = (buildRows cfg mode 0 pls).labels ∧
      k.spatial_temporal_idx = (buildRows cfg mode 0 pls).stIdx ∧
      k.video_meta_keys = (buildRows cfg mode 0 pls).metaKeys ∧
      k.mode = mode ∧ k.cfg = cfg ∧ k.num_retries = r ∧
      k.aug = (decide (mode = Mode.train) && cfg.AUG_ENABLE) ∧
      k.rand_erase =
        ((decide (mode = Mode.train) && cfg.AUG_ENABLE) && decide (0 < cfg.AUG_RE_PROB)) ∧
      0 < (buildRows cfg mode 0 pls).paths.length := by
  simp only [mkKinetics] at h
  split at h
  · simp at h
  · rename_i pls hp
    by_cases hpos : 0 < (buildRows cfg mode 0 pls).paths.length
    · rw [if_pos hpos] at h
      simp only [Option.some.injEq] at h
      exact ⟨pls, hp, by rw [← h], by rw [← h], by rw [← h], by rw [← h], by rw [← h],
        by rw [← h], by rw [← h], by rw [← h], by rw [← h], hpos⟩
    · rw [if_neg hpos] at h
      simp at h

theorem successItem_served {F : Type} (k : Kinetics) (env : Env F) (t i : Nat) :
    itemServedIndex (successItem k env t i) = i ∧
    itemServedLabel (successItem k env t i) = k.labels.getD i 0 := by
  unfold successItem
  by_cases h1 : k.aug
  · by_cases h2 : 1 < k.cfg.AUG_NUM_SAMPLE
    · have h0 : 0 < k.cfg.AUG_NUM_SAMPLE := by omega
      simp only [h1, h2, if_true]
      constructor
      · simp only [itemServedIndex]
        rw [List.getD_eq_getElem?_getD]
        simp [List.getElem?_replicate, h0]
      · simp only [itemServedLabel]
        rw [List.getD_eq_getElem?_getD]
        simp [List.getElem?_replicate, h0]
    · simp [h1, h2, itemServedIndex, itemServedLabel]
  · simp [h1, itemServedIndex, itemServedLabel]

theorem successItem_single_of_not_aug {F : Type} (k : Kinetics) (env : Env F) (t i : Nat)
    (h : k.aug = false) :
    successItem k env t i =
      Item.single (env.packMain (env.normSpatial (env.decodeFrames t i)))
        (k.labels.getD i 0) i := by
  simp [successItem, h]

theorem successItem_multi_of {F : Type} (k : Kinetics) (env : Env F) (t i : Nat)
    (h1 : k.aug = true) (h2 : 1 < k.cfg.AUG_NUM_SAMPLE) :
    successItem k env t i =
      Item.multi
        ((List.range k.cfg.AUG_NUM_SAMPLE).map
          (fun s => env.packAug (env.augFrame s (env.decodeFrames t i))))
        (List.replicate k.cfg.AUG_NUM_SAMPLE (k.labels.getD i 0))
        (List.replicate k.cfg.AUG_NUM_SAMPLE i) := by
  simp [successItem, h1, h2, List.map_const']

/-- C1 (amended): if every acquisition/decode attempt fails, the
candidate trace has exactly `num_retries` entries, attempt `j` using
candidate `failChain j` (never more, never fewer attempts).  Provided
every attempt's candidate stays in range, the call raises the
exhaustion `RuntimeError` when the exit candidate — one replacement
step past the last attempted index — is itself in range, and that error
carries the retry count and the path at the *exit* candidate, which
need not be the last attempted path; when the exit candidate is out of
range, the for-else dies with an `IndexError` while formatting and no
exhaustion error is raised.  In every case no item is returned and
nothing is recovered inside the dataset. -/
theorem C1_exhaustion_amended {F : Type} (env : Env F) (k : Kinetics) (idx : Nat)
    (hf : ∀ t j, (env.acquireOk t j && env.decodeOk t j) = false) :
    (getItemLoop k env idx).1.length = k.num_retries ∧
    (∀ j, j < k.num_retries →
      ((getItemLoop k env idx).1.getD j defaultAttempt).index = failChain k env j 0 idx ∧
      ((getItemLoop k env idx).1.getD j defaultAttempt).i_try = j) ∧
    ((∀ j, j < k.num_retries → failChain k env j 0 idx < numVideos k) →
      failChain k env k.num_retries 0 idx < numVideos k →
      getItemResult k env idx =
        PyResult.runtimeErr (k.path_to_videos.getD (failChain k env k.num_retries 0 idx) "")
          k.num_retries) ∧
    ((∀ j, j < k.num_retries → failChain k env j 0 idx < numVideos k) →
      numVideos k ≤ failChain k env k.num_retries 0 idx →
      getItemResult k env idx =
        PyResult.indexErr (failChain k env k.num_retries 0 idx)) ∧
    (∀ it, getItemResult k env idx ≠ PyResult.item it) := by
  have hloop := retryAux_allfail k env hf k.num_retries 0 idx
  have hgd : ∀ j, j < k.num_retries →
      ((getItemLoop k env idx).1.getD j defaultAttempt).index = failChain k env j 0 idx ∧
      ((getItemLoop k env idx).1.getD j defaultAttempt).i_try = j := by
    intro j hj
    have h := retryAux_allfail_getD k env hf k.num_retries 0 idx j hj
    refine ⟨h.1, ?_⟩
    simp only [getItemLoop]
    rw [h.2]
    exact Nat.zero_add j
  have hloop2 : (getItemLoop k env idx).2 =
      GetItemOutcome.exhausted (failChain k env k.num_retries 0 idx) k.num_retries := hloop.2
  have hfind : ∀ _ : (∀ j, j < k.num_retries → failChain k env j 0 idx < numVideos k),
      (getItemLoop k env idx).1.find? (fun a => decide (numVideos k ≤ a.index)) = none := by
    intro hall
    rw [List.find?_eq_none]
    intro a ha
    rw [List.mem_iff_getElem] at ha
    obtain ⟨j, hj, hja⟩ := ha
    have hjr : j < k.num_retries := by
      have := hloop.1
      simp only [getItemLoop] at hj
      omega
    have hidx : a.index = failChain k env j 0 idx := by
      have h1 := (hgd j hjr).1
      rw [List.getD_eq_getElem?_getD, List.getElem?_eq_getElem hj] at h1
      simp at h1
      rw [← hja]
      exact h1
    have := hall j hjr
    simp [hidx]
    omega
  refine ⟨hloop.1, hgd, ?_, ?_, ?_⟩
  · intro hall hin
    simp only [getItemResult, hfind hall, hloop2]
    rw [if_pos hin]
  · intro hall hout
    simp only [getItemResult, hfind hall, hloop2]
    rw [if_neg (by omega)]
  · intro it
    simp only [getItemResult]
    rcases hf2 : (getItemLoop k env idx).1.find? (fun a => decide (numVideos k ≤ a.index))
      with _ | a
    · simp only [hloop2]
      by_cases hin : failChain k env k.num_retries 0 idx < numVideos k
      · simp [hf2, hin]
      · simp [hf2, hin]
    · simp [hf2]

/-- C1 witness: the amended exhaustion theorem applied to the two-video
test-mode dataset `kCE` (`num_retries = 3`) under the all-failing
environment, at requested index 0 (all candidates in range, exit
candidate 1 in range: `RuntimeError` naming `path_to_videos[1]`) and at
requested index 1 (attempts in range, exit candidate 2 out of range:
`IndexError`, no exhaustion error). -/
theorem C1_exhaustion_witness :
    (getItemLoop kCE envFail 0).1.length = kCE.num_retries ∧
    getItemResult kCE envFail 0 =
      PyResult.runtimeErr
        (kCE.path_to_videos.getD (failChain kCE envFail kCE.num_retries 0 0) "")
        kCE.num_retries ∧
    getItemResult kCE envFail 1 =
      PyResult.indexErr (failChain kCE envFail kCE.num_retries 0 1) := by
  have h0 := C1_exhaustion_amended envFail kCE 0 (fun _ _ => rfl)
  have h1 := C1_exhaustion_amended envFail kCE 1 (fun _ _ => rfl)
  exact ⟨h0.1, h0.2.2.1 (by decide) (by decide), h1.2.2.2.1 (by decide) (by decide)⟩

/-- C1 counterexample: on the test-mode dataset `kCE` (paths `a.mp4`,
`b.mp4`, `num_retries = 3`) with every attempt failing: on requested
index 0, every attempt uses index 0 (path `a.mp4`) yet the exhaustion
error names path `b.mp4` — the candidate produced by the final
replacement step, not the last attempted path; and on requested index 1
no exhaustion error is raised at all — the call dies with an
`IndexError` at candidate 2 — so the claimed error identification fails
for every requested index in one way or the other. -/
theorem C1_counterexample :
    mkKinetics cfgCE Mode.test ["a.mp4 0", "b.mp4 1"] 3 = some kCE ∧
    (∀ a ∈ (getItemLoop kCE envFail 0).1, a.index = 0) ∧
    getItemResult kCE envFail 0 = PyResult.runtimeErr "b.mp4" 3 ∧
    kCE.path_to_videos.getD 0 "" = "a.mp4" ∧
    "b.mp4" ≠ "a.mp4" ∧
    getItemResult kCE envFail 1 = PyResult.indexErr 2 := by
  exact ⟨by rfl, by decide, by decide, by decide, by decide, by decide⟩

/-- C2: the replacement policy runs exactly after a failed attempt with
`i_try > num_retries / 2`; the next candidate is `index + 1` in test mode
and the random draw otherwise; every attempt with
`i_try ≤ num_retries / 2` still uses the requested index and triggers no
replacement (so with `num_retries = 20` none occurs at attempts 0..10);
and a call whose first attempt succeeds performs exactly one attempt and
never invokes replacement. -/
theorem C2_replacement_policy {F : Type} (env : Env F) (k : Kinetics) (idx : Nat) :
    (∀ a ∈ (getItemLoop k env idx).1,
      a.replacedAfter = (!a.decoded && replaceAfter k a.i_try)) ∧
    (∀ j, j + 1 < (getItemLoop k env idx).1.length →
      ((getItemLoop k env idx).1.getD (j + 1) defaultAttempt).index =
        (if ((getItemLoop k env idx).1.getD j defaultAttempt).replacedAfter then
          nextIndex k env (((getItemLoop k env idx).1.getD j defaultAttempt).i_try)
            (((getItemLoop k env idx).1.getD j defaultAttempt).index)
        else ((getItemLoop k env idx).1.getD j defaultAttempt).index)) ∧
    (k.mode = Mode.test → ∀ t i, nextIndex k env t i = i + 1) ∧
    (¬ k.mode = Mode.test → ∀ t i, nextIndex k env t i = env.randIdx t) ∧
    (∀ a ∈ (getItemLoop k env idx).1, a.i_try ≤ k.num_retries / 2 →
      a.index = idx ∧ a.replacedAfter = false) ∧
    ((env.acquireOk 0 idx && env.decodeOk 0 idx) = true → 0 < k.num_retries →
      getItemLoop k env idx =
        ([⟨0, idx, true, true, false⟩], GetItemOutcome.ok (successItem k env 0 idx))) := by
  refine ⟨retryAux_replacedAfter k env k.num_retries 0 idx,
    retryAux_chain k env k.num_retries 0 idx, ?_, ?_, ?_, ?_⟩
  · intro hm t i
    simp [nextIndex, hm]
  · intro hm t i
    cases hmode : k.mode with
    | test => exact absurd hmode hm
    | train => simp [nextIndex, hmode]
    | val => simp [nextIndex, hmode]
  · intro a ha hq
    refine ⟨retryAux_index_stable k env k.num_retries 0 idx a ha hq, ?_⟩
    rw [retryAux_replacedAfter k env k.num_retries 0 idx a ha]
    simp [replaceAfter, Nat.not_lt.mpr hq]
  · intro h hr
    exact retryAux_first_success k env k.num_retries 0 idx h hr

/-- C2 witness: on the dataset `kCE` (`num_retries = 3`) under the
all-succeeding environment, the call performs exactly the single
successful attempt 0 at the requested index. -/
theorem C2_replacement_witness :
    getItemLoop kCE envOK 0 =
      ([⟨0, 0, true, true, false⟩], GetItemOutcome.ok (Item.single () 0 0)) := by
  have h := (C2_replacement_policy envOK kCE 0).2.2.2.2.2 (by decide) (by decide)
  rw [h]
  rfl

/-- C3: in test mode the resolver returns
`temporal = spatial_temporal_idx[index] div num_spatial_crops`; the two
scales are always equal (the assertion holds); with more than one
spatial crop, `spatial = spatial_temporal_idx[index] mod num_spatial_crops`
and both scales and the crop size equal `TEST_CROP_SIZE`; with exactly
one crop, `spatial = 1`, the crop size is `TEST_CROP_SIZE`, and both
scales fall back to `TRAIN_JITTER_SCALES[0]`. -/
theorem C3_test_descriptor (k : Kinetics) (idx : Nat) (sci : Option Nat)
    (hm : k.mode = Mode.test) (hC : 0 < k.cfg.TEST_NUM_SPATIAL_CROPS)
    (hidx : idx < k.spatial_temporal_idx.length) :
    (resolveDescriptor k idx sci).temporal_sample_index =
      ((k.spatial_temporal_idx.getD idx 0 / k.cfg.TEST_NUM_SPATIAL_CROPS : Nat) : Int) ∧
    (resolveDescriptor k idx sci).min_scale = (resolveDescriptor k idx sci).max_scale ∧
    (1 < k.cfg.TEST_NUM_SPATIAL_CROPS →
      (resolveDescriptor k idx sci).spatial_sample_index =
        ((k.spatial_temporal_idx.getD idx 0 % k.cfg.TEST_NUM_SPATIAL_CROPS : Nat) : Int) ∧
      (resolveDescriptor k idx sci).min_scale = k.cfg.DATA_TEST_CROP_SIZE ∧
      (resolveDescriptor k idx sci).max_scale = k.cfg.DATA_TEST_CROP_SIZE ∧
      (resolveDescriptor k idx sci).crop_size = k.cfg.DATA_TEST_CROP_SIZE) ∧
    (k.cfg.TEST_NUM_SPATIAL_CROPS = 1 →
      (resolveDescriptor k idx sci).spatial_sample_index = 1 ∧
      (resolveDescriptor k idx sci).crop_size = k.cfg.DATA_TEST_CROP_SIZE ∧
      (resolveDescriptor k idx sci).min_scale = k.cfg.DATA_TRAIN_JITTER_SCALES.getD 0 0 ∧
      (resolveDescriptor k idx sci).max_scale = k.cfg.DATA_TRAIN_JITTER_SCALES.getD 0 0) := by
  by_cases h1 : 1 < k.cfg.TEST_NUM_SPATIAL_CROPS
  · simp [resolveDescriptor, hm, resolveTest, h1]
    omega
  · have hone : k.cfg.TEST_NUM_SPATIAL_CROPS = 1 := by omega
    simp [resolveDescriptor, hm, resolveTest, h1, hone]

/-- C3 witness: the resolver on the six-entry test dataset `kT`
(2 ensemble views, 3 spatial crops) at logical index 4 yields temporal
view 1, spatial crop 1, and equal scales — the worked example of the
specification. -/
theorem C3_test_descriptor_witness :
    (resolveDescriptor kT 4 none).temporal_sample_index = 1 ∧
    (resolveDescriptor kT 4 none).spatial_sample_index = 1 ∧
    (resolveDescriptor kT 4 none).min_scale = (resolveDescriptor kT 4 none).max_scale := by
  have h := C3_test_descriptor kT 4 none rfl (by decide) (by decide)
  exact ⟨h.1.trans (by decide), (h.2.2.1 (by decide)).1.trans (by decide), h.2.1⟩

/-- C4: in train and in val mode the resolver returns
`temporal_sample_index = spatial_sample_index = -1` (random sampling),
for every logical index and any configuration. -/
theorem C4_trainval_descriptor (k : Kinetics) (idx : Nat) (sci : Option Nat)
    (hm : k.mode = Mode.train ∨ k.mode = Mode.val) :
    (resolveDescriptor k idx sci).temporal_sample_index = -1 ∧
    (resolveDescriptor k idx sci).spatial_sample_index = -1 := by
  rcases hm with hm | hm <;> simp [resolveDescriptor, hm, resolveTrainVal]

/-- C4 witness: the train-mode dataset `kTr` resolves both sampling
indices to -1. -/
theorem C4_trainval_descriptor_witness :
    (resolveDescriptor kTr 0 none).temporal_sample_index = -1 ∧
    (resolveDescriptor kTr 0 none).spatial_sample_index = -1 :=
  C4_trainval_descriptor kTr 0 none (Or.inl rfl)

/-- C5: a successful `__getitem__` serves the label and logical index of
the final candidate: the last attempt is the one that decoded, the item
carries that attempt's candidate index (which may differ from the
requested one after replacement), and the carried label is
`labels[served index]`. -/
theorem C5_served_label_index {F : Type} (env : Env F) (k : Kinetics) (idx : Nat)
    (it : Item F) (h : (getItemLoop k env idx).2 = GetItemOutcome.ok it) :
    ((getItemLoop k env idx).1.getLastD defaultAttempt).decoded = true ∧
    itemServedIndex it = ((getItemLoop k env idx).1.getLastD defaultAttempt).index ∧
    itemServedLabel it = k.labels.getD (itemServedIndex it) 0 := by
  simp only [getItemLoop]
  have hh := retryAux_ok_getLast k env k.num_retries 0 idx it defaultAttempt h
  refine ⟨hh.1, ?_, ?_⟩
  · rw [hh.2]
    exact (successItem_served k env _ _).1
  · rw [hh.2]
    have hs := successItem_served k env
      (((retryAux k env k.num_retries 0 idx).1.getLastD defaultAttempt).i_try)
      (((retryAux k env k.num_retries 0 idx).1.getLastD defaultAttempt).index)
    rw [hs.1]
    exact hs.2

/-- C5 witness: on the train-mode dataset `kTr` (labels 10, 20, 30,
`num_retries = 5`) where only attempt 4 succeeds and the random
replacement draw is 2, requesting index 0 serves index 2 with label 30 —
the replacement candidate, not the requested one. -/
theorem C5_served_label_index_witness :
    (getItemLoop kTr env5 0).2 = GetItemOutcome.ok (Item.single () 30 2) ∧
    itemServedIndex (Item.single (() : Unit) 30 2) =
      ((getItemLoop kTr env5 0).1.getLastD defaultAttempt).index ∧
    itemServedLabel (Item.single (() : Unit) 30 2) = kTr.labels.getD 2 0 := by
  have h := C5_served_label_index env5 kTr 0 (Item.single () 30 2) (by decide)
  exact ⟨by decide, h.2.1, h.2.2⟩

/-- C6: when `aug` is set and `AUG.NUM_SAMPLE = k > 1`, a successful
`__getitem__` returns the list form whose frame, label and index lists
all have length `k`, with the label list constantly `labels[served]` and
the index list constantly the served index. -/
theorem C6_multisample_item {F : Type} (env : Env F) (k : Kinetics) (idx : Nat)
    (it : Item F) (ha : k.aug = true) (hn : 1 < k.cfg.AUG_NUM_SAMPLE)
    (h : (getItemLoop k env idx).2 = GetItemOutcome.ok it) :
    itemIsMulti it = true ∧
    (itemFrameList it).length = k.cfg.AUG_NUM_SAMPLE ∧
    itemLabelList it =
      List.replicate k.cfg.AUG_NUM_SAMPLE (k.labels.getD (itemServedIndex it) 0) ∧
    itemIndexList it = List.replicate k.cfg.AUG_NUM_SAMPLE (itemServedIndex it) := by
  have hh := retryAux_ok_getLast k env k.num_retries 0 idx it defaultAttempt h
  have h0 : 0 < k.cfg.AUG_NUM_SAMPLE := by omega
  rw [hh.2, successItem_multi_of k env _ _ ha hn]
  have hi : (List.replicate k.cfg.AUG_NUM_SAMPLE
      (((retryAux k env k.num_retries 0 idx).1.getLastD defaultAttempt).index)).getD 0 0 =
      ((retryAux k env k.num_retries 0 idx).1.getLastD defaultAttempt).index := by
    rw [List.getD_eq_getElem?_getD]
    simp [List.getElem?_replicate, h0]
  refine ⟨rfl, ?_, ?_, ?_⟩
  · simp [itemFrameList]
  · simp only [itemLabelList, itemServedIndex, hi]
  · simp only [itemIndexList, itemServedIndex, hi]

/-- C6 witness: on the aug-enabled train dataset `kA`
(`AUG_NUM_SAMPLE = 3`, single video of label 5), a successful call
returns three parallel entries, all with label 5 and index 0. -/
theorem C6_multisample_item_witness :
    kA.aug = true ∧ 1 < kA.cfg.AUG_NUM_SAMPLE ∧
    (getItemLoop kA envOK 0).2 =
      GetItemOutcome.ok (Item.multi [(), (), ()] [5, 5, 5] [0, 0, 0]) ∧
    itemLabelList (Item.multi ([(), (), ()] : List Unit) [5, 5, 5] [0, 0, 0]) =
      List.replicate kA.cfg.AUG_NUM_SAMPLE (kA.labels.getD 0 0) ∧
    itemIndexList (Item.multi ([(), (), ()] : List Unit) [5, 5, 5] [0, 0, 0]) =
      List.replicate kA.cfg.AUG_NUM_SAMPLE 0 := by
  have h := C6_multisample_item envOK kA 0 (Item.multi [(), (), ()] [5, 5, 5] [0, 0, 0])
    rfl (by decide) (by decide)
  exact ⟨rfl, by decide, by decide, h.2.2.1, h.2.2.2⟩

/-- C7: in train/val mode, a tuple key `(index, short_cycle_idx)` with
`short_cycle_idx` 0 or 1 overrides the crop size to
`round(SHORT_CYCLE_FACTORS[short_cycle_idx] * DEFAULT_S)`; whenever
`DEFAULT_S > 0` the minimum scale is rescaled to
`round(TRAIN_JITTER_SCALES[0] * crop_size / DEFAULT_S)` using the
descriptor crop size (i.e. the possibly overridden one), while the
maximum scale always stays `TRAIN_JITTER_SCALES[1]`. -/
theorem C7_short_cycle {F : Type} (env : Env F) (k : Kinetics) (idx i : Nat)
    (hm : k.mode = Mode.train ∨ k.mode = Mode.val) (hi : i = 0 ∨ i = 1) :
    (getItem k env (ItemKey.shortCycle idx i)).1.crop_size =
      round (k.cfg.MULTIGRID_SHORT_CYCLE_FACTORS.getD i 0 * k.cfg.MULTIGRID_DEFAULT_S) ∧
    (∀ sci, 0 < k.cfg.MULTIGRID_DEFAULT_S →
      (resolveDescriptor k idx sci).min_scale =
        round (((k.cfg.DATA_TRAIN_JITTER_SCALES.getD 0 0 : ℚ) *
          ((resolveDescriptor k idx sci).crop_size : ℚ)) / k.cfg.MULTIGRID_DEFAULT_S)) ∧
    (∀ sci, (resolveDescriptor k idx sci).max_scale =
      k.cfg.DATA_TRAIN_JITTER_SCALES.getD 1 0) := by
  refine ⟨?_, ?_, ?_⟩
  · rcases hm with hm | hm <;>
      simp [getItem, unpackKey, resolveDescriptor, hm, resolveTrainVal, hi]
  · intro sci hS
    rcases hm with hm | hm <;>
      simp [resolveDescriptor, hm, resolveTrainVal, hS]
  · intro sci
    rcases hm with hm | hm <;>
      simp [resolveDescriptor, hm, resolveTrainVal]

/-- C7 witness: under `cfgSC` (factors 2 and 1, `DEFAULT_S = 8`, jitter
scales 4 to 320) a short-cycle phase 0 gives crop size
`round(2 * 8) = 16`, min scale `round(4 * 16 / 8) = 8`, and max scale
320 unchanged. -/
theorem C7_short_cycle_witness :
    (getItem kSC envOK (ItemKey.shortCycle 0 0)).1.crop_size = 16 ∧
    (resolveDescriptor kSC 0 (some 0)).min_scale = 8 ∧
    (resolveDescriptor kSC 0 (some 0)).max_scale = 320 := by
  have h := C7_short_cycle envOK kSC 0 0 (Or.inl rfl) (Or.inl rfl)
  have hc : (getItem kSC envOK (ItemKey.shortCycle 0 0)).1.crop_size = 16 := by
    refine h.1.trans ?_
    show (round ((2 : ℚ) * 8) : Int) = 16
    norm_num [round_eq]
  have hc2 : (resolveDescriptor kSC 0 (some 0)).crop_size = 16 := hc
  refine ⟨hc, ?_, ?_⟩
  · have h2 := h.2.1 (some 0) (by norm_num [kSC, cfgSC])
    rw [hc2] at h2
    refine h2.trans ?_
    show (round (((4 : Int) : ℚ) * ((16 : Int) : ℚ) / 8) : Int) = 8
    norm_num [round_eq]
  · exact (h.2.2 (some 0)).trans (by decide)

/-- C8: construction from an `N`-line manifest yields exactly
`N * num_clips` entries in each of the parallel arrays, `__len__`
reports that number, every entry of line `li` carries that line's
(prefix-joined) path and parsed label with `spatial_temporal_idx`
running over `0 .. num_clips - 1`, and construction fails when some
line does not split into exactly two fields or when the expanded
manifest is empty. -/
theorem C8_manifest_expansion (cfg : Cfg) (mode : Mode) (lines : List String) (r : Nat) :
    (∀ k, mkKinetics cfg mode lines r = some k →
      numVideos k = lines.length * numClips cfg mode ∧
      lenKinetics k = lines.length * numClips cfg mode ∧
      k.labels.length = lines.length * numClips cfg mode ∧
      k.spatial_temporal_idx.length = lines.length * numClips cfg mode ∧
      (∀ li j, li < lines.length → j < numClips cfg mode →
        k.path_to_videos.getD (li * numClips cfg mode + j) "" =
          pathJoin cfg.DATA_PATH_ROOT (((parseAll cfg lines).getD []).getD li ("", 0)).1 ∧
        k.labels.getD (li * numClips cfg mode + j) 0 =
          (((parseAll cfg lines).getD []).getD li ("", 0)).2 ∧
        k.spatial_temporal_idx.getD (li * numClips cfg mode + j) 0 = j)) ∧
    ((∃ line ∈ lines, (pySplit line cfg.DATA_PATH_LABEL_SEPARATOR).length ≠ 2) →
      mkKinetics cfg mode lines r = none) ∧
    (lines.length * numClips cfg mode = 0 → mkKinetics cfg mode lines r = none) := by
  refine ⟨?_, ?_, ?_⟩
  · intro k hk
    obtain ⟨pls, hp, hpaths, hlabels, hst, _, _, _, _, _, _, hpos⟩ :=
      mkKinetics_fields cfg mode lines r k hk
    have hlen := buildRows_lengths cfg mode pls 0
    have hplen := parseAll_length cfg lines pls hp
    refine ⟨?_, ?_, ?_, ?_, ?_⟩
    · rw [numVideos, hpaths, hlen.1, hplen]
    · rw [lenKinetics, numVideos, hpaths, hlen.1, hplen]
    · rw [hlabels, hlen.2.1, hplen]
    · rw [hst, hlen.2.2, hplen]
    · intro li j hli hj
      have hli' : li < pls.length := by rw [hplen]; exact hli
      have hg := buildRows_getD cfg mode pls 0 li j hli' hj
      rw [hpaths, hlabels, hst, hp]
      exact hg
  · intro hbad
    obtain ⟨line, hmem, hb⟩ := hbad
    have := parseAll_badline cfg lines line hmem hb
    simp [mkKinetics, this]
  · intro h0
    match hp : parseAll cfg lines with
    | none => simp [mkKinetics, hp]
    | some pls =>
        have hplen := parseAll_length cfg lines pls hp
        have hlen := (buildRows_lengths cfg mode pls 0).1
        have hz : (buildRows cfg mode 0 pls).paths.length = 0 := by
          rw [hlen, hplen]
          exact h0
        simp [mkKinetics, hp, hz]

/-- C8 witness: the one-line comma-separated manifest under `cfgT`
(2 ensemble views, 3 spatial crops) constructs the six-entry dataset
`kT` and its length reporting is `1 * 6 = 6`. -/
theorem C8_manifest_expansion_witness :
    mkKinetics cfgT Mode.test ["videos/a.mp4,7"] 20 = some kT ∧
    numVideos kT = (["videos/a.mp4,7"] : List String).length * numClips cfgT Mode.test ∧
    lenKinetics kT = 6 ∧
    kT.spatial_temporal_idx.getD 4 0 = 4 := by
  have h := (C8_manifest_expansion cfgT Mode.test ["videos/a.mp4,7"] 20).1 kT (by rfl)
  exact ⟨by rfl, h.1, by decide, by decide⟩

/-- C9 (amended): the `_video_meta` keys of a constructed dataset are
exactly the valid logical indices; outside test mode every candidate
index touched by the retry loop (each attempt, and the index in the
exhaustion error) stays in bounds provided the requested index is in
bounds and the random draws are in `[0, len - 1]`; in test mode every
candidate index is bounded by
`index + (num_retries - (num_retries / 2 + 1))`, which is not in
general below `len(path_to_videos)` — the linear `index + 1` probe has
no bound check. -/
theorem C9_index_bounds_amended {F : Type} (env : Env F) (cfg : Cfg) (mode : Mode)
    (lines : List String) (r : Nat) (k : Kinetics) (idx : Nat)
    (hk : mkKinetics cfg mode lines r = some k) :
    (∀ i, i ∈ k.video_meta_keys ↔ i < numVideos k) ∧
    (¬ k.mode = Mode.test → idx < numVideos k → (∀ t, env.randIdx t < numVideos k) →
      (∀ a ∈ (getItemLoop k env idx).1, a.index < numVideos k) ∧
      (∀ e n, (getItemLoop k env idx).2 = GetItemOutcome.exhausted e n →
        e < numVideos k)) ∧
    (k.mode = Mode.test →
      (∀ a ∈ (getItemLoop k env idx).1,
        a.index ≤ idx + (k.num_retries - (k.num_retries / 2 + 1))) ∧
      (∀ e n, (getItemLoop k env idx).2 = GetItemOutcome.exhausted e n →
        e ≤ idx + (k.num_retries - (k.num_retries / 2 + 1)))) := by
  obtain ⟨pls, hp, hpaths, _, _, hmeta, _, _, _, _, _, _⟩ :=
    mkKinetics_fields cfg mode lines r k hk
  refine ⟨?_, ?_, ?_⟩
  · intro i
    rw [hmeta, buildRows_metaKeys cfg mode pls 0, numVideos, hpaths,
      (buildRows_lengths cfg mode pls 0).1]
    simp [List.mem_range']
  · intro hm hidx hr
    exact retryAux_nontest_bound k env (numVideos k) hm hr k.num_retries 0 idx hidx
  · intro hm
    have hb := retryAux_test_bound k env hm k.num_retries 0 idx
    have hc : replCount k k.num_retries 0 = k.num_retries - (k.num_retries / 2 + 1) := by
      rw [replCount_eq]
      omega
    rw [hc] at hb
    exact hb

/-- C9 witness: on the constructed train-mode dataset `kTr` (3 videos)
with in-range random draws, every attempt of a call on index 0 stays in
bounds, and the meta-key set coincides with the valid indices. -/
theorem C9_index_bounds_witness :
    (∀ a ∈ (getItemLoop kTr env5 0).1, a.index < numVideos kTr) ∧
    (0 ∈ kTr.video_meta_keys ↔ 0 < numVideos kTr) := by
  have h := C9_index_bounds_amended env5 cfgTr Mode.train ["x 10", "y 20", "z 30"] 5 kTr 0
    (by rfl)
  exact ⟨(h.2.1 (by decide) (by decide) (fun _ => by show (2 : Nat) < 3; decide)).1, h.1 0⟩

/-- C9 counterexample: on the constructed test-mode dataset `kCE9`
(2 videos, `num_retries = 6`) with every attempt failing, a call on the
in-range index 1 performs an attempt whose candidate index reaches
`len(path_to_videos) = 2` — the `index + 1` replacement walks out of
bounds, so the claimed in-bounds safety is false. -/
theorem C9_counterexample :
    mkKinetics cfgCE Mode.test ["a.mp4 0", "b.mp4 1"] 6 = some kCE9 ∧
    ¬ (∀ a ∈ (getItemLoop kCE9 envFail 1).1, a.index < numVideos kCE9) := by
  exact ⟨by rfl, by decide⟩

/-- C10: the constructor sets `aug` exactly for train mode with
`AUG.ENABLE`, and `rand_erase` additionally requires `AUG.RE_PROB > 0`;
hence in val and test mode a successful `__getitem__` always takes the
plain normalize-and-spatial-sample path and returns the scalar item
form, never the multi-sample list form. -/
theorem C10_aug_only_train {F : Type} (env : Env F) (cfg : Cfg) (mode : Mode)
    (lines : List String) (r : Nat) (k : Kinetics) (idx : Nat) (it : Item F)
    (hk : mkKinetics cfg mode lines r = some k) :
    (k.aug = true ↔ (mode = Mode.train ∧ cfg.AUG_ENABLE = true)) ∧
    (k.rand_erase = true ↔
      (mode = Mode.train ∧ cfg.AUG_ENABLE = true ∧ 0 < cfg.AUG_RE_PROB)) ∧
    ((mode = Mode.val ∨ mode = Mode.test) →
      (getItemLoop k env idx).2 = GetItemOutcome.ok it →
      itemIsMulti it = false ∧
      it = Item.single
        (env.packMain (env.normSpatial (env.decodeFrames
          (((getItemLoop k env idx).1.getLastD defaultAttempt).i_try)
          (((getItemLoop k env idx).1.getLastD defaultAttempt).index))))
        (k.labels.getD (((getItemLoop k env idx).1.getLastD defaultAttempt).index) 0)
        (((getItemLoop k env idx).1.getLastD defaultAttempt).index)) := by
  obtain ⟨pls, hp, _, _, _, _, _, _, _, haug, herase, _⟩ :=
    mkKinetics_fields cfg mode lines r k hk
  refine ⟨?_, ?_, ?_⟩
  · rw [haug]
    simp [Bool.and_eq_true, decide_eq_true_iff]
  · rw [herase]
    simp [Bool.and_eq_true, decide_eq_true_iff]
    tauto
  · intro hmv hok
    have haug0 : k.aug = false := by
      rw [haug]
      rcases hmv with rfl | rfl <;> simp
    simp only [getItemLoop]
    have hh := retryAux_ok_getLast k env k.num_retries 0 idx it defaultAttempt hok
    rw [hh.2, successItem_single_of_not_aug k env _ _ haug0]
    exact ⟨rfl, rfl⟩

/-- C10 witness: under `cfgA` (augmentation enabled, 3 samples) the
val-mode dataset `kVal` still has `aug` unset and a successful call
returns the scalar item form. -/
theorem C10_aug_only_train_witness :
    kVal.aug = false ∧
    (getItemLoop kVal envOK 0).2 = GetItemOutcome.ok (Item.single () 7 0) ∧
    itemIsMulti (Item.single (() : Unit) 7 0) = false := by
  have h := C10_aug_only_train envOK cfgA Mode.val ["v 7"] 20 kVal 0
    (Item.single () 7 0) (by rfl)
  exact ⟨by decide, by decide, (h.2.2 (Or.inl rfl) (by decide)).1⟩

end ATS
